import Mathlib

/-!
Shallow embedding of `splat_plot.py` (`plotSpectrum`) and proofs about its
input normalization, per-plot parameter resolution, feature annotation,
pagination, and axis-bound computation.
-/

namespace SplatPlot

/-- A caller-supplied Spectrum object: wavelength, flux and noise sequences
(as exact rationals), plus the value returned by the external method
`fluxMax().value`. -/
structure Spectrum where
  wave : List ℚ
  flux : List ℚ
  noise : List ℚ
  fluxMaxVal : ℚ
deriving DecidableEq

/-- A Python object as seen by `plotSpectrum`'s duck-typed input handling:
a Spectrum, a list of objects, or anything else (malformed). -/
inductive Obj where
  | spec : Spectrum → Obj
  | lst : List Obj → Obj
  | bad : Obj

/-- Python exceptions the normalization / group loop can raise. -/
inductive PErr where
  | typeError
  | valueError
  | attributeError
  | indexError
deriving DecidableEq

/-- The check `a.__class__.__name__ == 'Spectrum'` (lines 197, 213, 216, 259). -/
def isSpec : Obj → Bool
  | .spec _ => true
  | _ => false

/-- The check `isinstance(a, list)` (lines 190, 199, 209, 220). -/
def isList : Obj → Bool
  | .lst _ => true
  | _ => false

/-- Lines 185-202: build `splist` from `*args`.  No args prints a message and
returns early (`none`); a single list arg is used as-is; otherwise elements
that are neither Spectrum objects nor lists are dropped with a warning. -/
def buildSplist : List Obj → Option (List Obj)
  | [] => none
  | [Obj.lst l] => some l
  | [a] => some ([a].filter fun o => isSpec o || isList o)
  | args => some (args.filter fun o => isSpec o || isList o)

/-- Flatten used at line 221: `[item for sublist in splist for item in sublist]`
(that branch is unreachable, see `setupMultiplot`). -/
def flattenObjs (l : List Obj) : List Obj :=
  l.flatMap fun o =>
    match o with
    | .lst inner => inner
    | o => [o]

/-- Lines 204-221: resolve the effective `multiplot` flag and reformat
`splist` into the uniform list of plot groups.  An empty `splist` indexes
`splist[0]` and raises `IndexError`.  Returns the final flag together with
the reformatted list. -/
def setupMultiplot (mp0 : Bool) : List Obj → Except PErr (Bool × List Obj)
  | [] => .error .indexError
  | h :: t =>
    let mp := if t.isEmpty then false else if isList h then true else mp0
    if mp && isSpec h then .ok (mp, (h :: t).map fun s => Obj.lst [s])
    else if !mp && isSpec h then .ok (mp, [Obj.lst (h :: t)])
    else if !mp && isList h && !t.isEmpty then .ok (mp, [Obj.lst (flattenObjs (h :: t))])
    else .ok (mp, h :: t)

/-- Line 341 `a.flux.value` for each member of a group: any member that is
not a Spectrum object has no `flux` attribute and raises `AttributeError`. -/
def specMembers : List Obj → Except PErr (List Spectrum)
  | [] => .ok []
  | Obj.spec s :: t => (specMembers t).map fun r => s :: r
  | _ :: _ => .error .attributeError

/-- Lines 257-260 and 340-341 for one group `sp`: `sp[0]` on an empty list
raises `IndexError`; on a non-list object it raises `TypeError` (Spectrum
objects and malformed objects are not sequences); a group whose first element
is not a Spectrum raises `ValueError`; then every member must be a Spectrum. -/
def runGroup : Obj → Except PErr (List Spectrum)
  | Obj.lst [] => .error .indexError
  | Obj.lst (x :: t) => if isSpec x then specMembers (x :: t) else .error .valueError
  | _ => .error .typeError

/-- The loop over `splist` (line 257), stopping at the first exception. -/
def runGroups : List Obj → Except PErr (List (List Spectrum))
  | [] => .ok []
  | g :: t =>
    match runGroup g with
    | .error e => .error e
    | .ok gs => (runGroups t).map fun r => gs :: r

/-- The pipeline from the populated `splist` onwards: multiplot resolution
and the group loop. -/
def plotNormalizeFrom (mp0 : Bool) (splist : List Obj) :
    Except PErr (Bool × List (List Spectrum)) :=
  match setupMultiplot mp0 splist with
  | .error e => .error e
  | .ok (mp, sl) => (runGroups sl).map fun gs => (mp, gs)

/-- The whole input pipeline: `*args` plus the `multiplot` keyword to the
final multiplot flag and the list of plot groups (or the first exception).
The early no-input return yields no groups. -/
def plotNormalize (mp0 : Bool) (args : List Obj) :
    Except PErr (Bool × List (List Spectrum)) :=
  match buildSplist args with
  | none => .ok (mp0, [])
  | some splist => plotNormalizeFrom mp0 splist

/-! ## Per-spectrum option lists (lines 226-231, 275-285, 302-315) -/

/-- The padding idiom `if len(l) < n: l.extend([d]*(n-len(l)))`. -/
def padList (l : List α) (n : Nat) (d : α) : List α :=
  l ++ List.replicate (n - l.length) d

/-- Lines 282-285: `colors = kwargs.get('colors', ['k']*len(sp))`, padded
with `'k'`. -/
def resolveColors (user : Option (List String)) (n : Nat) : List String :=
  padList (user.getD (List.replicate n "k")) n "k"

/-- Lines 275-278: `linestyle = kwargs.get('linestyle', ['steps']*len(sp))`,
padded with `'steps'`. -/
def resolveLinestyle (user : Option (List String)) (n : Nat) : List String :=
  padList (user.getD (List.replicate n "steps")) n "steps"

/-- Lines 226-231: `legend = kwargs.get('legend', ['']*tot_sp)`, padded with
`''` up to the total number of spectra. -/
def resolveLegend (user : Option (List String)) (totSp : Nat) : List String :=
  padList (user.getD (List.replicate totSp "")) totSp ""

/-- Lines 302-308: `showNoise = kwargs.get('showNoise', [False]*len(sp))`,
but padded with `True` when a user list is shorter than the group. -/
def resolveShowNoise (user : Option (List Bool)) (n : Nat) : List Bool :=
  padList (user.getD (List.replicate n false)) n true

/-! ## Multipage pagination (lines 240-247, 319-327) -/

/-- Lines 244-246: `numpages = int(len(splist)/nplot) + 1`, decremented when
the group count divides evenly. -/
def numpages (nplot g : Nat) : Nat :=
  let np := g / nplot + 1
  if g % nplot = 0 then np - 1 else np

/-- Mathematical ceiling division, the quantity the spec calls
`ceil(G/(R*C))`. -/
def ceilDiv (a b : Nat) : Nat := (a + b - 1) / b

/-- Lines 319-327 for `rem` remaining iterations starting at loop index
`plts` with page counter `pg_n`: each iteration computes
`plt_n = plts % nplot`, opens a fresh page when `plt_n == 0`, and places the
group on page `pg_n - 1` at tile `plt_n`. -/
def pageLoopAux (nplot : Nat) : Nat → Nat → Nat → List (Nat × Nat)
  | 0, _, _ => []
  | rem + 1, plts, pg_n =>
    let plt_n := plts % nplot
    let pg_n' := if plt_n = 0 then pg_n + 1 else pg_n
    (pg_n' - 1, plt_n) :: pageLoopAux nplot rem (plts + 1) pg_n'

/-- The (page, tile) assignment of the `g` plot groups in multipage mode. -/
def pageAssign (nplot g : Nat) : List (Nat × Nat) :=
  pageLoopAux nplot g 0 0

/-- Loop invariant for the multipage page counter: the number of pages
opened before processing loop index `plts`. -/
def pgInv (n plts : Nat) : Nat :=
  if plts % n = 0 then plts / n else plts / n + 1

/-- Binary minimum on exact rationals (`numpy.min` of a two-element range),
written out so it evaluates by kernel reduction. -/
def minQ (a b : ℚ) : ℚ := if a ≤ b then a else b

/-- Binary maximum on exact rationals (`numpy.max` of a two-element range). -/
def maxQ (a b : ℚ) : ℚ := if a ≤ b then b else a

/-! ## Feature annotation (lines 149-182, 384-406) -/

inductive FType where
  | band
  | line
deriving DecidableEq

structure Feature where
  label : String
  ftype : FType
  wavelengths : List (ℚ × ℚ)

/-- The `feature_labels` table (lines 149-166). -/
def feature_labels : List (String × Feature) :=
  [("h2o", ⟨"H$_2$O", .band, [(92/100, 95/100), (108/100, 120/100), (1325/1000, 1550/1000), (172/100, 214/100)]⟩),
   ("ch4", ⟨"CH$_4$", .band, [(11/10, 124/100), (128/100, 144/100), (16/10, 176/100), (22/10, 235/100)]⟩),
   ("co", ⟨"CO", .band, [(228/100, 239/100)]⟩),
   ("tio", ⟨"TiO", .band, [(76/100, 80/100), (825/1000, 831/1000)]⟩),
   ("vo", ⟨"VO", .band, [(104/100, 108/100)]⟩),
   ("feh", ⟨"FeH", .band, [(86/100, 90/100), (98/100, 103/100), (119/100, 125/100), (157/100, 164/100)]⟩),
   ("h2", ⟨"H$_2$", .band, [(205/100, 26/10)]⟩),
   ("sb", ⟨"*", .band, [(16/10, 164/100)]⟩),
   ("h", ⟨"H I", .line, [(1004/1000, 1005/1000), (1093/1000, 1094/1000), (1281/1000, 1282/1000), (1944/1000, 1945/1000), (2166/1000, 2166/1000)]⟩),
   ("hi", ⟨"H I", .line, [(1004/1000, 1005/1000), (1093/1000, 1094/1000), (1281/1000, 1282/1000), (1944/1000, 1945/1000), (2166/1000, 2166/1000)]⟩),
   ("h1", ⟨"H I", .line, [(1004/1000, 1005/1000), (1093/1000, 1094/1000), (1281/1000, 1282/1000), (1944/1000, 1945/1000), (2166/1000, 2166/1000)]⟩),
   ("na", ⟨"Na I", .line, [(8186/10000, 8195/10000), (1136/1000, 1137/1000), (2206/1000, 2209/1000)]⟩),
   ("nai", ⟨"Na I", .line, [(8186/10000, 8195/10000), (1136/1000, 1137/1000), (2206/1000, 2209/1000)]⟩),
   ("na1", ⟨"Na I", .line, [(8186/10000, 8195/10000), (1136/1000, 1137/1000), (2206/1000, 2209/1000)]⟩),
   ("k", ⟨"K I", .line, [(7699/10000, 7665/10000), (1169/1000, 1177/1000), (1244/1000, 1252/1000)]⟩),
   ("ki", ⟨"K I", .line, [(7699/10000, 7665/10000), (1169/1000, 1177/1000), (1244/1000, 1252/1000)]⟩),
   ("k1", ⟨"K I", .line, [(7699/10000, 7665/10000), (1169/1000, 1177/1000), (1244/1000, 1252/1000)]⟩)]

/-- Lines 168-176: the requested feature list after the class-membership
flags extend it with their preset codes (this mutates the caller's list in
place; see the frame-effect theorem). -/
def combinedFeatures (features : List String)
    (mdwarf ldwarf tdwarf young binary : Bool) : List String :=
  features ++ (if ldwarf || mdwarf then ["k", "na", "feh", "tio", "co", "h2o", "h2"] else [])
    ++ (if tdwarf then ["k", "ch4", "h2o", "h2"] else [])
    ++ (if young then ["vo"] else [])
    ++ (if binary then ["sb"] else [])

/-- Lines 178-182: `fea = []; for i in features: if i not in fea:
fea.append(i)` — order-preserving removal of exact-string repeats. -/
def dedupFold (features : List String) : List String :=
  features.foldl (fun fea i => if i ∈ fea then fea else fea ++ [i]) []

/-- Python's `str.lower()` (ASCII letters, character by character). -/
def toLowerStr (s : String) : String :=
  ⟨s.data.map Char.toLower⟩

/-- Lines 384-402, one entry per loop iteration whose (lowercased) code is in
the table: the code together with the wavelength intervals that pass the
bounds test `min(waveRng) > bound[0] and max(waveRng) < bound[1]` and hence
get a label and bracket/tick marks drawn. -/
def featureEvents (b0 b1 : ℚ) (features : List String) :
    List (String × List (ℚ × ℚ)) :=
  features.filterMap fun ftr0 =>
    let ftr := toLowerStr ftr0
    match feature_labels.lookup ftr with
    | none => none
    | some f =>
      some (ftr, f.wavelengths.filter fun w =>
        decide (b0 < minQ w.1 w.2) && decide (maxQ w.1 w.2 < b1))

/-- All wavelength intervals that receive any annotation. -/
def drawnIntervals (b0 b1 : ℚ) (features : List String) : List (ℚ × ℚ) :=
  ((featureEvents b0 b1 features).map Prod.snd).flatten

/-- The feature codes that actually get an annotation drawn: loop iterations
whose code is in the table and for which at least one wavelength interval
passes the line-388 bounds test (a code all of whose intervals fall outside
the bounds draws nothing). -/
def annotatedCodes (b0 b1 : ℚ) (features : List String) : List String :=
  ((featureEvents b0 b1 features).filter fun e => !e.2.isEmpty).map Prod.fst

/-! ## Axis bounds for a default-option plot group (lines 261-274, 340-368,
382, 410, 422) -/

/-- Maximum of a list of rationals, `numpy.max` / `numpy.nanmax` on exact
values (0 on an empty list, which never occurs in use). -/
def maxList : List ℚ → ℚ
  | [] => 0
  | a :: l => l.foldl maxQ a

/-- Python's `numpy.arange(a, b, step)` over exact rationals. -/
def arangeQ (a b step : ℚ) : List ℚ :=
  (List.range (⌈(b - a) / step⌉).toNat).map fun k : ℕ => a + (k : ℚ) * step

/-- The `k`-th point of the default grid `numpy.arange(0.85, 2.42, 0.001)`. -/
def gridPt (k : ℕ) : ℚ := 85/100 + (k : ℚ) * (1/1000)

/-- Evaluation of `scipy.interpolate.interp1d(xs, ys, bounds_error=False, fill_value=0.)`
evaluated at `x`: piecewise-linear on the (sorted) sample points, 0 outside
their range. -/
def interpPts : List (ℚ × ℚ) → ℚ → ℚ
  | [], _ => 0
  | [(x0, y0)], x => if x = x0 then y0 else 0
  | (x0, y0) :: (x1, y1) :: rest, x =>
    if x < x0 then 0
    else if x ≤ x1 then y0 + (y1 - y0) * (x - x0) / (x1 - x0)
    else interpPts ((x1, y1) :: rest) x

/-- Line 363, `f = interp1d(a.wave, flx, ...)`, applied to one grid point. -/
def interp1d (xs ys : List ℚ) (x : ℚ) : ℚ :=
  interpPts (xs.zip ys) x

/-- Lines 363-368 with default zeropoints and stack: `flxmax`, the pointwise
maximum over the group of each spectrum's flux interpolated on the grid
`wvmax`. -/
def envelope (sp : List Spectrum) (grid : List ℚ) : List ℚ :=
  match sp with
  | [] => []
  | s :: rest =>
    rest.foldl (fun acc t => List.zipWith maxQ acc (grid.map (interp1d t.wave t.flux)))
      (grid.map (interp1d s.wave s.flux))

/-- The final `bound` passed to `ax.axis` (line 422) for one plot group with
every option left at its default: `xrange = [0.85, 2.42]` (line 270),
`yrng = [-0.02, 1.2]` scaled by the group's flux maximum (line 273),
`yoff = 0.02*(bound[3]-bound[2])` (line 382), no features or stack, and the
line 410 overwrite `bound[3] = numpy.max(flxmax) + 2.*yoff`. -/
def finalBound (sp : List Spectrum) : List ℚ :=
  let fm := maxList (sp.map fun s => s.fluxMaxVal)
  let b0 : ℚ := 85/100
  let b1 : ℚ := 242/100
  let b2 : ℚ := (-2/100) * fm
  let b3 : ℚ := (12/10) * fm
  let yoff := (2/100) * (b3 - b2)
  let wvmax := arangeQ b0 b1 (1/1000)
  let flxmax := envelope sp wvmax
  [b0, b1, b2, maxList flxmax + 2 * yoff]

/-- The bounds the spec sentence describes: x-range `[0.85, 2.42]` and
y-range the flux maximum scaled by `[-0.02, 1.2]`. -/
def claimedBound (sp : List Spectrum) : List ℚ :=
  let fm := maxList (sp.map fun s => s.fluxMaxVal)
  [85/100, 242/100, (-2/100) * fm, (12/10) * fm]

/-! ## Frame effects on caller-supplied lists (lines 168-176, 270-274) -/

/-- Lines 270-274 across the plot-group loop: `bound = xrange` aliases the
caller's list, and each iteration `bound.extend(yrng)` appends that
iteration's two y-range values to it.  The fold gives the caller's `xrange`
list content after `G` iterations with per-iteration `yrng` lists. -/
def boundAfterCall (xr : List ℚ) (yrngs : List (List ℚ)) : List ℚ :=
  yrngs.foldl (fun b y => b ++ y) xr

/-! ## Concrete Spectrum values used in witnesses and counterexamples -/

/-- A spectrum with wavelength range `[1.0, 1.3]`, constant flux 1 and
`fluxMax().value = 1`. -/
def specConst : Spectrum := ⟨[1, 13/10], [1, 1], [0, 0], 1⟩

def specB : Spectrum := ⟨[1, 2], [2, 3], [0, 0], 3⟩

/-- Success test on an `Except` result. -/
def isOkE : Except PErr α → Bool
  | .ok _ => true
  | .error _ => false

/-! ## Helper lemmas -/

theorem padList_length {α : Type} (l : List α) (n : Nat) (d : α)
    (h : l.length ≤ n) : (padList l n d).length = n := by
  simp [padList]
  omega

theorem padList_getElem_lt {α : Type} (l : List α) (n : Nat) (d : α)
    {i : Nat} (h : i < l.length) : (padList l n d)[i]? = l[i]? := by
  simp [padList, List.getElem?_append, h]

theorem padList_getElem_ge {α : Type} (l : List α) (n : Nat) (d : α)
    {i : Nat} (h1 : l.length ≤ i) (h2 : i < n) :
    (padList l n d)[i]? = some d := by
  rw [padList, List.getElem?_append_right h1, List.getElem?_replicate]
  rw [if_pos (by omega)]

theorem boundAfterCall_length (yrngs : List (List ℚ)) :
    ∀ xr : List ℚ, (∀ yr ∈ yrngs, yr.length = 2) →
    (boundAfterCall xr yrngs).length = xr.length + 2 * yrngs.length := by
  induction yrngs with
  | nil => intro xr _; simp [boundAfterCall]
  | cons y t ih =>
    intro xr h
    have hy : y.length = 2 := h y (by simp)
    have ht : ∀ yr ∈ t, yr.length = 2 := fun yr hm => h yr (by simp [hm])
    have : boundAfterCall xr (y :: t) = boundAfterCall (xr ++ y) t := rfl
    rw [this, ih (xr ++ y) ht, List.length_append, hy, List.length_cons]
    omega

theorem pgInv_succ (n plts : Nat) (hn : 0 < n) :
    pgInv n (plts + 1) = plts / n + 1 := by
  rcases Nat.lt_or_ge (plts % n + 1) n with h | h
  · have hmod : (plts + 1) % n = plts % n + 1 := by
      conv_lhs => rw [← Nat.div_add_mod plts n, Nat.add_assoc]
      rw [Nat.mul_add_mod, Nat.mod_eq_of_lt h]
    have hdiv : (plts + 1) / n = plts / n := by
      conv_lhs => rw [← Nat.div_add_mod plts n, Nat.add_assoc]
      rw [Nat.mul_add_div hn, Nat.div_eq_of_lt h, Nat.add_zero]
    simp [pgInv, hmod, hdiv]
  · have hr : plts % n + 1 = n :=
      Nat.le_antisymm (Nat.succ_le_of_lt (Nat.mod_lt _ hn)) h
    have heq : plts + 1 = n * (plts / n + 1) := by
      conv_lhs => rw [← Nat.div_add_mod plts n, Nat.add_assoc, hr]
      rw [Nat.mul_succ]
    have hmod : (plts + 1) % n = 0 := by
      rw [heq, Nat.mul_mod_right]
    have hdiv : (plts + 1) / n = plts / n + 1 := by
      rw [heq, Nat.mul_div_cancel_left _ hn]
    simp [pgInv, hmod, hdiv]

theorem pgInv_step (n plts : Nat) :
    (if plts % n = 0 then pgInv n plts + 1 else pgInv n plts) = plts / n + 1 := by
  by_cases h : plts % n = 0 <;> simp [pgInv, h]

theorem pageLoopAux_eq (n : Nat) (hn : 0 < n) :
    ∀ rem plts : Nat, pageLoopAux n rem plts (pgInv n plts) =
      (List.range' plts rem).map fun i => (i / n, i % n) := by
  intro rem
  induction rem with
  | zero => intro plts; rfl
  | succ r ih =>
    intro plts
    rw [pageLoopAux, List.range'_succ, List.map_cons]
    simp only [pgInv_step n plts]
    rw [Nat.add_sub_cancel, ← pgInv_succ n plts hn, ih (plts + 1)]

theorem pageAssign_eq (n g : Nat) (hn : 0 < n) :
    pageAssign n g = (List.range g).map fun i => (i / n, i % n) := by
  have h0 : pgInv n 0 = 0 := by simp [pgInv]
  have h := pageLoopAux_eq n hn g 0
  rw [h0] at h
  rw [pageAssign, List.range_eq_range', h]

theorem numpages_eq_ceilDiv (n g : Nat) (hn : 0 < n) :
    numpages n g = ceilDiv g n := by
  have hqr := Nat.div_add_mod g n
  have hrlt := Nat.mod_lt g hn
  rw [numpages, ceilDiv]
  by_cases h : g % n = 0
  · have hg : g + n - 1 = n * (g / n) + (n - 1) := by omega
    have h1 : (n * (g / n) + (n - 1)) / n = g / n + (n - 1) / n :=
      Nat.mul_add_div hn _ _
    have h2 : (n - 1) / n = 0 := Nat.div_eq_of_lt (by omega)
    rw [if_pos h, hg, h1, h2]
    simp
  · have hg : g + n - 1 = n * (g / n + 1) + (g % n - 1) := by
      rw [Nat.mul_succ]; omega
    have h1 : (n * (g / n + 1) + (g % n - 1)) / n = g / n + 1 + (g % n - 1) / n :=
      Nat.mul_add_div hn _ _
    have h2 : (g % n - 1) / n = 0 := Nat.div_eq_of_lt (by omega)
    rw [if_neg h, hg, h1, h2]

theorem dedupFoldAux_mem (l : List String) :
    ∀ (acc : List String) (x : String),
    x ∈ l.foldl (fun fea i => if i ∈ fea then fea else fea ++ [i]) acc ↔
      x ∈ acc ∨ x ∈ l := by
  induction l with
  | nil => simp
  | cons a t ih =>
    intro acc x
    simp only [List.foldl_cons]
    by_cases h : a ∈ acc
    · rw [if_pos h, ih]
      constructor
      · rintro (hx | hx)
        · exact Or.inl hx
        · exact Or.inr (List.mem_cons_of_mem _ hx)
      · rintro (hx | hx)
        · exact Or.inl hx
        · rcases List.mem_cons.mp hx with rfl | hx
          · exact Or.inl h
          · exact Or.inr hx
    · rw [if_neg h, ih]
      simp only [List.mem_append, List.mem_singleton, List.mem_cons]
      tauto

theorem dedupFold_mem (l : List String) (x : String) :
    x ∈ dedupFold l ↔ x ∈ l := by
  rw [dedupFold, dedupFoldAux_mem]
  simp

theorem dedupFoldAux_pairwise (l0 : List String) :
    ∀ (l acc pre : List String), l0 = pre ++ l →
    (∀ x, x ∈ acc ↔ x ∈ pre) →
    List.Pairwise (fun a b => l0.indexOf a < l0.indexOf b) acc →
    (∀ x ∈ acc, l0.indexOf x < pre.length) →
    List.Pairwise (fun a b => l0.indexOf a < l0.indexOf b)
      (l.foldl (fun fea i => if i ∈ fea then fea else fea ++ [i]) acc) := by
  intro l
  induction l with
  | nil =>
    intro acc pre _ _ hpw _
    simpa using hpw
  | cons a t ih =>
    intro acc pre h0 hmem hpw hbnd
    simp only [List.foldl_cons]
    by_cases h : a ∈ acc
    · rw [if_pos h]
      refine ih acc (pre ++ [a]) (by rw [h0]; simp) ?_ hpw ?_
      · intro x
        rw [hmem x, List.mem_append, List.mem_singleton]
        constructor
        · exact fun hx => Or.inl hx
        · rintro (hx | rfl)
          · exact hx
          · exact (hmem x).mp h
      · intro x hx
        have := hbnd x hx
        simp only [List.length_append, List.length_singleton]
        omega
    · rw [if_neg h]
      have ha_pre : a ∉ pre := fun hp => h ((hmem a).mpr hp)
      have hidx : l0.indexOf a = pre.length := by
        rw [h0, List.indexOf_append_of_not_mem ha_pre, List.indexOf_cons_self]
        exact Nat.add_zero _
      refine ih (acc ++ [a]) (pre ++ [a]) (by rw [h0]; simp) ?_ ?_ ?_
      · intro x
        simp only [List.mem_append, List.mem_singleton]
        exact or_congr (hmem x) Iff.rfl
      · rw [List.pairwise_append]
        refine ⟨hpw, List.pairwise_singleton _ _, ?_⟩
        intro x hx b hb
        rw [List.mem_singleton] at hb
        subst hb
        rw [hidx]
        exact hbnd x hx
      · intro x hx
        simp only [List.length_append, List.length_singleton]
        rcases List.mem_append.mp hx with hx | hx
        · have := hbnd x hx
          omega
        · rw [List.mem_singleton] at hx
          subst hx
          rw [hidx]
          omega

theorem dedupFold_pairwise (l : List String) :
    List.Pairwise (fun a b => l.indexOf a < l.indexOf b) (dedupFold l) := by
  refine dedupFoldAux_pairwise l l [] [] rfl (by simp) (by simp) (by simp)

theorem featureEvents_map_fst (b0 b1 : ℚ) (fs : List String)
    (h : ∀ s ∈ fs, toLowerStr s = s) :
    (featureEvents b0 b1 fs).map Prod.fst =
      fs.filter fun c => (feature_labels.lookup c).isSome := by
  induction fs with
  | nil => rfl
  | cons a t ih =>
    have ha : toLowerStr a = a := h a (List.mem_cons_self a t)
    have ht : ∀ s ∈ t, toLowerStr s = s := fun s hs => h s (List.mem_cons_of_mem _ hs)
    rw [featureEvents, List.filterMap_cons]
    simp only [ha]
    rw [List.filter_cons]
    cases hl : feature_labels.lookup a with
    | none =>
      rw [if_neg (by simp [hl])]
      exact ih ht
    | some f =>
      rw [if_pos (by simp [hl])]
      rw [List.map_cons]
      exact congrArg (a :: ·) (ih ht)

theorem annotatedCodes_sublist (b0 b1 : ℚ) (fs : List String) :
    (annotatedCodes b0 b1 fs).Sublist ((featureEvents b0 b1 fs).map Prod.fst) :=
  List.Sublist.map Prod.fst (List.filter_sublist _)

/-- Computation rule for `annotatedCodes` on a two-event trace whose drawn
interval lists are both nonempty. -/
theorem annotatedCodes_pair {b0 b1 : ℚ} {fs : List String} {c1 c2 : String}
    {l1 l2 : List (ℚ × ℚ)}
    (hev : featureEvents b0 b1 fs = [(c1, l1), (c2, l2)])
    (h1 : l1 ≠ []) (h2 : l2 ≠ []) :
    annotatedCodes b0 b1 fs = [c1, c2] := by
  have e1 : (!l1.isEmpty) = true := by
    cases l1 with
    | nil => exact absurd rfl h1
    | cons a t => rfl
  have e2 : (!l2.isEmpty) = true := by
    cases l2 with
    | nil => exact absurd rfl h2
    | cons a t => rfl
  rw [annotatedCodes, hev]
  simp only [List.filter_cons, List.filter_nil, e1, e2, if_true, List.map_cons,
    List.map_nil]

theorem specMembers_map (l : List Spectrum) :
    specMembers (l.map Obj.spec) = .ok l := by
  induction l with
  | nil => rfl
  | cons s t ih => rw [List.map_cons, specMembers, ih]; rfl

theorem runGroup_lst (g : List Spectrum) (h : g ≠ []) :
    runGroup (Obj.lst (g.map Obj.spec)) = .ok g := by
  cases g with
  | nil => exact absurd rfl h
  | cons s t =>
    have h1 : runGroup (Obj.lst ((s :: t).map Obj.spec)) =
        specMembers ((s :: t).map Obj.spec) := rfl
    rw [h1, specMembers_map]

theorem runGroups_cons_ok (g : Obj) (t : List Obj) (gs : List Spectrum)
    (h : runGroup g = .ok gs) :
    runGroups (g :: t) = (runGroups t).map fun r => gs :: r := by
  rw [runGroups, h]

theorem runGroups_lstmap (gs : List (List Spectrum)) (h : ∀ g ∈ gs, g ≠ []) :
    runGroups (gs.map fun g => Obj.lst (g.map Obj.spec)) = .ok gs := by
  induction gs with
  | nil => rfl
  | cons g t ih =>
    rw [List.map_cons, runGroups_cons_ok _ _ g (runGroup_lst g (h g (by simp))),
      ih fun x hx => h x (by simp [hx])]
    rfl

theorem runGroups_wrap (specs : List Spectrum) :
    runGroups (specs.map fun s => Obj.lst [Obj.spec s]) =
      .ok (specs.map fun s => [s]) := by
  induction specs with
  | nil => rfl
  | cons s t ih =>
    have h1 : runGroup (Obj.lst [Obj.spec s]) = .ok [s] := rfl
    rw [List.map_cons, runGroups_cons_ok _ _ [s] h1, ih]
    rfl

theorem filter_specGood (l : List Spectrum) :
    (l.map Obj.spec).filter (fun o => isSpec o || isList o) = l.map Obj.spec := by
  rw [List.filter_eq_self]
  intro a ha
  obtain ⟨s, _, rfl⟩ := List.mem_map.mp ha
  rfl

theorem buildSplist_two (a b : Obj) (t : List Obj) :
    buildSplist (a :: b :: t) =
      some ((a :: b :: t).filter fun o => isSpec o || isList o) := by
  cases a <;> cases b <;> rfl

theorem buildSplist_ge2 (args : List Obj) (h : 2 ≤ args.length) :
    buildSplist args = some (args.filter fun o => isSpec o || isList o) := by
  match args, h with
  | a :: b :: t, _ => exact buildSplist_two a b t

theorem plotNormalize_some (mp0 : Bool) (args splist : List Obj)
    (h : buildSplist args = some splist) :
    plotNormalize mp0 args = plotNormalizeFrom mp0 splist := by
  rw [plotNormalize, h]

theorem buildSplist_specs (l : List Spectrum) (h : l ≠ []) :
    buildSplist (l.map Obj.spec) = some (l.map Obj.spec) := by
  cases l with
  | nil => exact absurd rfl h
  | cons s t =>
    cases t with
    | nil => rfl
    | cons s2 t2 =>
      rw [List.map_cons, List.map_cons, buildSplist_two, ← List.map_cons, ← List.map_cons,
        filter_specGood]

theorem le_maxQ_left (a b : ℚ) : a ≤ maxQ a b := by
  rw [maxQ]
  by_cases h : a ≤ b
  · rw [if_pos h]; exact h
  · rw [if_neg h]

theorem le_maxQ_right (a b : ℚ) : b ≤ maxQ a b := by
  rw [maxQ]
  by_cases h : a ≤ b
  · rw [if_pos h]
  · rw [if_neg h]; exact le_of_not_le h

theorem maxQ_le (a b c : ℚ) (h1 : a ≤ c) (h2 : b ≤ c) : maxQ a b ≤ c := by
  rw [maxQ]
  by_cases h : a ≤ b
  · rw [if_pos h]; exact h2
  · rw [if_neg h]; exact h1

theorem foldl_maxQ_le (l : List ℚ) :
    ∀ a c : ℚ, a ≤ c → (∀ x ∈ l, x ≤ c) → l.foldl maxQ a ≤ c := by
  induction l with
  | nil => intro a c h _; simpa using h
  | cons x t ih =>
    intro a c ha hl
    rw [List.foldl_cons]
    exact ih (maxQ a x) c (maxQ_le _ _ _ ha (hl x (by simp))) fun y hy => hl y (by simp [hy])

theorem le_foldl_maxQ_init (l : List ℚ) : ∀ a : ℚ, a ≤ l.foldl maxQ a := by
  induction l with
  | nil => intro a; simp
  | cons x t ih =>
    intro a
    rw [List.foldl_cons]
    exact le_trans (le_maxQ_left a x) (ih (maxQ a x))

theorem le_foldl_maxQ_mem (l : List ℚ) : ∀ a x : ℚ, x ∈ l → x ≤ l.foldl maxQ a := by
  induction l with
  | nil => intro a x hx; simp at hx
  | cons y t ih =>
    intro a x hx
    rw [List.foldl_cons]
    rcases List.mem_cons.mp hx with rfl | hx
    · exact le_trans (le_maxQ_right a x) (le_foldl_maxQ_init t (maxQ a x))
    · exact ih (maxQ a y) x hx

theorem maxList_eq (l : List ℚ) (c : ℚ) (hmem : c ∈ l) (hub : ∀ x ∈ l, x ≤ c) :
    maxList l = c := by
  cases l with
  | nil => simp at hmem
  | cons a t =>
    show t.foldl maxQ a = c
    apply le_antisymm
    · exact foldl_maxQ_le t a c (hub a (by simp)) fun x hx => hub x (by simp [hx])
    · rcases List.mem_cons.mp hmem with rfl | hmem
      · exact le_foldl_maxQ_init t c
      · exact le_foldl_maxQ_mem t a c hmem

/-- The linear interpolant of the constant-1 spectrum on `[1, 1.3]` with
fill value 0 outside. -/
theorem interp_specConst (x : ℚ) :
    interp1d [1, 13/10] [1, 1] x = if 1 ≤ x ∧ x ≤ 13/10 then 1 else 0 := by
  have e : interp1d [1, 13/10] [1, 1] x =
      (if x < 1 then 0
        else if x ≤ 13/10 then 1 + (1 - 1) * (x - 1) / (13/10 - 1)
        else interpPts [((13:ℚ)/10, 1)] x) := rfl
  rw [e]
  by_cases h1 : x < 1
  · rw [if_pos h1, if_neg fun hc => absurd hc.1 (not_le.mpr h1)]
  · rw [if_neg h1]
    by_cases h2 : x ≤ 13/10
    · rw [if_pos h2, if_pos ⟨le_of_not_lt h1, h2⟩]
      ring
    · rw [if_neg h2]
      have e2 : interpPts [((13:ℚ)/10, 1)] x = if x = 13/10 then 1 else 0 := rfl
      rw [e2, if_neg fun hc => h2 (le_of_eq hc), if_neg fun hc => h2 hc.2]

set_option maxRecDepth 20000 in
/-- The default grid `numpy.arange(0.85, 2.42, 0.001)` has 1570 points. -/
theorem gridLen : arangeQ (85/100) (242/100) (1/1000) =
    (List.range 1570).map gridPt := by
  have h : ((242:ℚ)/100 - 85/100) / (1/1000) = ((1570:ℤ) : ℚ) := by norm_num
  have h2 : ((1570:ℤ)).toNat = 1570 := rfl
  have hfun : (fun k : ℕ => (85:ℚ)/100 + (k : ℚ) * (1/1000)) = gridPt := by
    funext k
    rw [gridPt]
  rw [arangeQ, h, Int.ceil_intCast, h2, hfun]

set_option maxRecDepth 4000 in
/-- The max of the interpolated flux envelope of `specConst` on the default
grid is its flux value 1. -/
theorem envMax_specConst :
    maxList (envelope [specConst] (arangeQ (85/100) (242/100) (1/1000))) = 1 := by
  have henv : envelope [specConst] (arangeQ (85/100) (242/100) (1/1000)) =
      (arangeQ (85/100) (242/100) (1/1000)).map (interp1d [1, 13/10] [1, 1]) := rfl
  rw [henv, gridLen]
  apply maxList_eq
  · have hx : gridPt 150 ∈ (List.range 1570).map gridPt :=
      List.mem_map_of_mem gridPt (List.mem_range.mpr (show (150:ℕ) < 1570 by norm_num))
    have h1 : interp1d [1, 13/10] [1, 1] (gridPt 150) = 1 := by
      have hg : gridPt 150 = 1 := by norm_num [gridPt]
      rw [hg, interp_specConst, if_pos (by constructor <;> norm_num)]
    have hm := List.mem_map_of_mem (interp1d [1, 13/10] [1, 1]) hx
    rwa [h1] at hm
  · intro v hv
    obtain ⟨x, _, rfl⟩ := List.mem_map.mp hv
    rw [interp_specConst]
    by_cases h : (1:ℚ) ≤ x ∧ x ≤ 13/10
    · rw [if_pos h]
    · rw [if_neg h]; norm_num

/-- The final axis bounds of a default single-spectrum plot, with the
`yoff` arithmetic collapsed: `2*yoff = 2*0.02*(1.2+0.02)*fluxMax`. -/
theorem finalBound_eq (s : Spectrum) :
    finalBound [s] = [85/100, 242/100, (-2/100) * s.fluxMaxVal,
      maxList (envelope [s] (arangeQ (85/100) (242/100) (1/1000))) +
        (61/1250) * s.fluxMaxVal] := by
  have hfm : maxList ([s].map fun x => x.fluxMaxVal) = s.fluxMaxVal := rfl
  show [(85:ℚ)/100, 242/100, (-2/100) * maxList ([s].map fun x => x.fluxMaxVal),
      maxList (envelope [s] (arangeQ (85/100) (242/100) (1/1000))) +
        2 * ((2/100) * ((12/10) * maxList ([s].map fun x => x.fluxMaxVal) -
          (-2/100) * maxList ([s].map fun x => x.fluxMaxVal)))] = _
  rw [hfm]
  have harith : 2 * ((2/100) * ((12/10) * s.fluxMaxVal - (-2/100) * s.fluxMaxVal)) =
      (61/1250) * s.fluxMaxVal := by ring
  rw [harith]

/-! ## Claim theorems -/

/-- C5: a user-supplied color, linestyle, or legend list shorter than the
required count is padded with its default (`'k'`, `'steps'`, `''`) up to that
count before any per-spectrum indexing, so every index below the required
count is in bounds: entries below the supplied length are the user's, the
rest are the default. -/
theorem C5_option_lists_padded (uc ul ug : List String) (n tot : Nat)
    (hc : uc.length < n) (hl : ul.length < n) (hg : ug.length < tot) :
    ((resolveColors (some uc) n).length = n ∧
      (∀ i, i < uc.length → (resolveColors (some uc) n)[i]? = uc[i]?) ∧
      (∀ i, uc.length ≤ i → i < n → (resolveColors (some uc) n)[i]? = some "k")) ∧
    ((resolveLinestyle (some ul) n).length = n ∧
      (∀ i, i < ul.length → (resolveLinestyle (some ul) n)[i]? = ul[i]?) ∧
      (∀ i, ul.length ≤ i → i < n → (resolveLinestyle (some ul) n)[i]? = some "steps")) ∧
    ((resolveLegend (some ug) tot).length = tot ∧
      (∀ i, i < ug.length → (resolveLegend (some ug) tot)[i]? = ug[i]?) ∧
      (∀ i, ug.length ≤ i → i < tot → (resolveLegend (some ug) tot)[i]? = some "")) := by
  refine ⟨⟨?_, ?_, ?_⟩, ⟨?_, ?_, ?_⟩, ⟨?_, ?_, ?_⟩⟩
  · exact padList_length _ _ _ (Nat.le_of_lt hc)
  · intro i hi; exact padList_getElem_lt _ _ _ hi
  · intro i h1 h2; exact padList_getElem_ge _ _ _ h1 h2
  · exact padList_length _ _ _ (Nat.le_of_lt hl)
  · intro i hi; exact padList_getElem_lt _ _ _ hi
  · intro i h1 h2; exact padList_getElem_ge _ _ _ h1 h2
  · exact padList_length _ _ _ (Nat.le_of_lt hg)
  · intro i hi; exact padList_getElem_lt _ _ _ hi
  · intro i h1 h2; exact padList_getElem_ge _ _ _ h1 h2

/-- Witness for C5 at a concrete input. -/
theorem C5_option_lists_padded_witness :
    (["r"] : List String).length < 3 ∧ (["-"] : List String).length < 3 ∧
    (["a"] : List String).length < 3 ∧
    (((resolveColors (some ["r"]) 3).length = 3 ∧
      (∀ i, i < (["r"] : List String).length → (resolveColors (some ["r"]) 3)[i]? = ["r"][i]?) ∧
      (∀ i, (["r"] : List String).length ≤ i → i < 3 → (resolveColors (some ["r"]) 3)[i]? = some "k")) ∧
    ((resolveLinestyle (some ["-"]) 3).length = 3 ∧
      (∀ i, i < (["-"] : List String).length → (resolveLinestyle (some ["-"]) 3)[i]? = ["-"][i]?) ∧
      (∀ i, (["-"] : List String).length ≤ i → i < 3 → (resolveLinestyle (some ["-"]) 3)[i]? = some "steps")) ∧
    ((resolveLegend (some ["a"]) 3).length = 3 ∧
      (∀ i, i < (["a"] : List String).length → (resolveLegend (some ["a"]) 3)[i]? = ["a"][i]?) ∧
      (∀ i, (["a"] : List String).length ≤ i → i < 3 → (resolveLegend (some ["a"]) 3)[i]? = some ""))) :=
  ⟨by decide, by decide, by decide,
    C5_option_lists_padded ["r"] ["-"] ["a"] 3 3 (by decide) (by decide) (by decide)⟩

/-- C10: a `showNoise` list shorter than the group is padded with `True`, so
the uncertainty curve is drawn for every spectrum past the supplied length,
although the default with no user list at all is `False` everywhere. -/
theorem C10_shownoise_padded_true (l : List Bool) (n : Nat) (h : l.length < n) :
    (resolveShowNoise (some l) n).length = n ∧
    (∀ i, l.length ≤ i → i < n → (resolveShowNoise (some l) n)[i]? = some true) ∧
    (∀ i, i < n → (resolveShowNoise none n)[i]? = some false) := by
  refine ⟨padList_length _ _ _ (Nat.le_of_lt h), ?_, ?_⟩
  · intro i h1 h2; exact padList_getElem_ge _ _ _ h1 h2
  · intro i hi
    have : resolveShowNoise none n = List.replicate n false := by
      simp [resolveShowNoise, padList]
    rw [this, List.getElem?_replicate, if_pos hi]

/-- Witness for C10 at a concrete input. -/
theorem C10_shownoise_padded_true_witness :
    ([false] : List Bool).length < 2 ∧
    ((resolveShowNoise (some [false]) 2).length = 2 ∧
      (∀ i, ([false] : List Bool).length ≤ i → i < 2 →
        (resolveShowNoise (some [false]) 2)[i]? = some true) ∧
      (∀ i, i < 2 → (resolveShowNoise none 2)[i]? = some false)) :=
  ⟨by decide, C10_shownoise_padded_true [false] 2 (by decide)⟩

/-- C1 counterexample: for the spectrum `specConst` (wavelength range
`[1.0, 1.3]`, constant flux 1, `fluxMax = 1`) with all-default options, the
final axis bounds differ from `[0.85, 2.42, -0.02*fluxMax, 1.2*fluxMax]`:
line 410 overwrites `bound[3]` with `numpy.max(flxmax) + 2*yoff = 1.0488`,
not `1.2`. -/
theorem C1_default_bounds_counterexample :
    finalBound [specConst] ≠ claimedBound [specConst] := by
  rw [finalBound_eq specConst, envMax_specConst]
  have hc : claimedBound [specConst] =
      [85/100, 242/100, (-2/100) * (1:ℚ), (12/10) * (1:ℚ)] := rfl
  have hs : specConst.fluxMaxVal = 1 := rfl
  rw [hc, hs]
  intro hEq
  simp only [List.cons.injEq] at hEq
  have h4 : (1:ℚ) + (61/1250) * 1 = (12/10) * 1 := hEq.2.2.2.1
  norm_num at h4

/-- C1 amended: a call with exactly one spectrum and default options
produces exactly one plot group containing that spectrum, whose x-axis
bounds are `[0.85, 2.42]` and whose y-axis lower bound is `-0.02*fluxMax`;
the y-axis upper bound, however, is the maximum of the interpolated flux
envelope over the x-grid plus `2*yoff` (line 410), i.e.
`max(flxmax) + 0.0488*fluxMax` — not `1.2*fluxMax`. -/
theorem C1_default_call_one_plot_bounds (s : Spectrum) :
    plotNormalize false [Obj.spec s] = .ok (false, [[s]]) ∧
    finalBound [s] = [85/100, 242/100, (-2/100) * s.fluxMaxVal,
      maxList (envelope [s] (arangeQ (85/100) (242/100) (1/1000))) +
        (61/1250) * s.fluxMaxVal] :=
  ⟨rfl, finalBound_eq s⟩

/-- C2 counterexample: deduplication (lines 178-182) compares raw strings,
but the annotation loop (line 385) lowercases before the table lookup, so the
request `['H2O', 'h2o']` survives deduplication whole and the feature code
`h2o` — which does have in-bounds intervals at the default bounds, e.g.
`[0.92, 0.95]` — is drawn twice, refuting "each feature code appears at most
once in the annotated output" as stated. -/
theorem C2_dedup_counterexample :
    ¬ (annotatedCodes (85/100) (242/100)
      (dedupFold (combinedFeatures ["H2O", "h2o"] false false false false false))).Nodup := by
  have hmem : (((92:ℚ)/100, (95:ℚ)/100) ∈
      ([((92:ℚ)/100, 95/100), (108/100, 120/100), (1325/1000, 1550/1000),
        (172/100, 214/100)] : List (ℚ × ℚ)).filter fun w =>
          decide ((85:ℚ)/100 < minQ w.1 w.2) && decide (maxQ w.1 w.2 < (242:ℚ)/100)) := by
    rw [List.mem_filter]
    refine ⟨List.mem_cons_self _ _, ?_⟩
    rw [Bool.and_eq_true]
    constructor
    · rw [decide_eq_true_iff]
      show (85:ℚ)/100 < minQ (92/100) (95/100)
      rw [minQ, if_pos (by norm_num)]
      norm_num
    · rw [decide_eq_true_iff]
      show maxQ ((92:ℚ)/100) (95/100) < 242/100
      rw [maxQ, if_pos (by norm_num)]
      norm_num
  have hann : annotatedCodes (85/100) (242/100)
      (dedupFold (combinedFeatures ["H2O", "h2o"] false false false false false)) =
      ["h2o", "h2o"] :=
    annotatedCodes_pair rfl (List.ne_nil_of_mem hmem) (List.ne_nil_of_mem hmem)
  rw [hann]
  decide

/-- C2 amended: when every entry of the combined request list (explicit
features plus preset codes from the class-membership flags) is already
lowercase, each feature code appears at most once among the codes that
actually get an annotation drawn, and those codes appear in first-occurrence
order of the combined request list.  (Codes differing only in letter case
defeat the deduplication, see the counterexample.) -/
theorem C2_features_dedup_ordered (feats : List String) (m l t y b : Bool)
    (b0 b1 : ℚ)
    (hlc : ∀ s ∈ combinedFeatures feats m l t y b, toLowerStr s = s) :
    (annotatedCodes b0 b1 (dedupFold (combinedFeatures feats m l t y b))).Nodup ∧
    List.Pairwise
      (fun u v => (combinedFeatures feats m l t y b).indexOf u <
        (combinedFeatures feats m l t y b).indexOf v)
      (annotatedCodes b0 b1 (dedupFold (combinedFeatures feats m l t y b))) := by
  have hlc2 : ∀ s ∈ dedupFold (combinedFeatures feats m l t y b), toLowerStr s = s :=
    fun s hs => hlc s ((dedupFold_mem _ s).mp hs)
  have hmap := featureEvents_map_fst b0 b1
    (dedupFold (combinedFeatures feats m l t y b)) hlc2
  have hpw_all : List.Pairwise
      (fun u v => (combinedFeatures feats m l t y b).indexOf u <
        (combinedFeatures feats m l t y b).indexOf v)
      ((featureEvents b0 b1 (dedupFold (combinedFeatures feats m l t y b))).map
        Prod.fst) := by
    rw [hmap]
    exact List.Pairwise.sublist (List.filter_sublist _) (dedupFold_pairwise _)
  have hpw := List.Pairwise.sublist (annotatedCodes_sublist b0 b1 _) hpw_all
  refine ⟨?_, hpw⟩
  exact hpw.imp fun {u v} hlt => by
    intro he
    rw [he] at hlt
    exact Nat.lt_irrefl _ hlt

/-- Witness for C2 amended at a concrete input. -/
theorem C2_features_dedup_ordered_witness :
    (∀ s ∈ combinedFeatures ["h2o", "k", "h2o"] false false true false false,
      toLowerStr s = s) ∧
    ((annotatedCodes (85/100) (242/100)
        (dedupFold (combinedFeatures ["h2o", "k", "h2o"] false false true false false))).Nodup ∧
      List.Pairwise
        (fun u v => (combinedFeatures ["h2o", "k", "h2o"] false false true false false).indexOf u <
          (combinedFeatures ["h2o", "k", "h2o"] false false true false false).indexOf v)
        (annotatedCodes (85/100) (242/100)
          (dedupFold (combinedFeatures ["h2o", "k", "h2o"] false false true false false)))) :=
  ⟨by decide, C2_features_dedup_ordered ["h2o", "k", "h2o"] false false true false false
    (85/100) (242/100) (by decide)⟩

/-- C8: a wavelength interval of a requested feature that does not lie
strictly inside the x-axis bounds (minimum strictly above the lower bound and
maximum strictly below the upper bound, line 388) never has an annotation
drawn for it. -/
theorem C8_out_of_bounds_never_annotated (b0 b1 : ℚ) (fs : List String)
    (iv : ℚ × ℚ) (h : ¬ (b0 < minQ iv.1 iv.2 ∧ maxQ iv.1 iv.2 < b1)) :
    iv ∉ drawnIntervals b0 b1 fs := by
  intro hmem
  rw [drawnIntervals, List.mem_flatten] at hmem
  obtain ⟨ivs, hivs, hiv⟩ := hmem
  rw [List.mem_map] at hivs
  obtain ⟨e, he, rfl⟩ := hivs
  rw [featureEvents, List.mem_filterMap] at he
  obtain ⟨ftr0, _, hf⟩ := he
  simp only at hf
  cases hl : feature_labels.lookup (toLowerStr ftr0) with
  | none => rw [hl] at hf; exact Option.noConfusion hf
  | some f =>
    rw [hl] at hf
    obtain rfl := Option.some.inj hf
    rw [List.mem_filter] at hiv
    have := hiv.2
    rw [Bool.and_eq_true, decide_eq_true_iff, decide_eq_true_iff] at this
    exact h this

/-- Witness for C8 at a concrete input: an interval reaching past the upper
bound is never annotated. -/
theorem C8_out_of_bounds_never_annotated_witness :
    (¬ ((1 : ℚ) < minQ 2 3 ∧ maxQ 2 3 < 2)) ∧
    ((2 : ℚ), (3 : ℚ)) ∉ drawnIntervals 1 2 ["tio"] :=
  ⟨by decide, C8_out_of_bounds_never_annotated 1 2 ["tio"]
    ((2 : ℚ), (3 : ℚ)) (by decide)⟩

/-- C4: in multipage mode with `G ≥ 1` plot groups and an `R × C` layout
grid, the number of pages equals `ceil(G/(R*C))`, and group `i` (0-based) is
placed on page `i / (R*C)` at tile position `i % (R*C)` of that page. -/
theorem C4_pagination (R C G : Nat) (hn : 0 < R * C) (_hg : 1 ≤ G) :
    numpages (R * C) G = ceilDiv G (R * C) ∧
    (pageAssign (R * C) G).length = G ∧
    ∀ i, i < G → (pageAssign (R * C) G)[i]? = some (i / (R * C), i % (R * C)) := by
  refine ⟨numpages_eq_ceilDiv (R * C) G hn, ?_, ?_⟩
  · rw [pageAssign_eq (R * C) G hn, List.length_map, List.length_range]
  · intro i hi
    rw [pageAssign_eq (R * C) G hn, List.getElem?_map, List.getElem?_range hi]
    rfl

/-- Witness for C4 at a concrete input: 9 groups on a 2×2 grid. -/
theorem C4_pagination_witness :
    0 < 2 * 2 ∧ 1 ≤ 9 ∧
    (numpages (2 * 2) 9 = ceilDiv 9 (2 * 2) ∧
      (pageAssign (2 * 2) 9).length = 9 ∧
      ∀ i, i < 9 → (pageAssign (2 * 2) 9)[i]? = some (i / (2 * 2), i % (2 * 2))) :=
  ⟨by decide, by decide, C4_pagination 2 2 9 (by decide) (by decide)⟩

/-- C9: `plotSpectrum` mutates caller-supplied lists in place: the `xrange`
list, aliased as `bound`, grows by that iteration's two y-range values on
every plot-group iteration, and the `features` list is extended with preset
codes whenever a class-membership flag is set; afterwards the caller's lists
are longer than supplied (the original content remains as a prefix). -/
theorem C9_caller_lists_mutated (xr : List ℚ) (yrngs : List (List ℚ))
    (feats : List String) (m l t y b : Bool)
    (hlen : ∀ yr ∈ yrngs, yr.length = 2) :
    (boundAfterCall xr yrngs).length = xr.length + 2 * yrngs.length ∧
    (yrngs ≠ [] → xr.length < (boundAfterCall xr yrngs).length) ∧
    ((m || l || t || y || b) = true →
      feats.length < (combinedFeatures feats m l t y b).length) ∧
    (∃ rest, combinedFeatures feats m l t y b = feats ++ rest) := by
  refine ⟨boundAfterCall_length yrngs xr hlen, ?_, ?_, ?_⟩
  · intro hne
    rw [boundAfterCall_length yrngs xr hlen]
    cases yrngs with
    | nil => exact absurd rfl hne
    | cons a s => simp [List.length_cons]
  · intro hflag
    cases m <;> cases l <;> cases t <;> cases y <;> cases b <;>
      simp_all [combinedFeatures]
  · refine ⟨(if l || m then ["k", "na", "feh", "tio", "co", "h2o", "h2"] else []) ++
      ((if t then ["k", "ch4", "h2o", "h2"] else []) ++
        ((if y then ["vo"] else []) ++ (if b then ["sb"] else []))), ?_⟩
    simp [combinedFeatures]

/-- Witness for C9 at a concrete input. -/
theorem C9_caller_lists_mutated_witness :
    (∀ yr ∈ ([[-1/50, 6/5]] : List (List ℚ)), yr.length = 2) ∧
    ((boundAfterCall [85/100, 242/100] [[-1/50, 6/5]]).length =
        ([85/100, 242/100] : List ℚ).length + 2 * ([[-1/50, 6/5]] : List (List ℚ)).length ∧
      (([[-1/50, 6/5]] : List (List ℚ)) ≠ [] →
        ([85/100, 242/100] : List ℚ).length <
          (boundAfterCall [85/100, 242/100] [[-1/50, 6/5]]).length) ∧
      ((false || false || true || false || false) = true →
        ([] : List String).length <
          (combinedFeatures [] false false true false false).length) ∧
      (∃ rest, combinedFeatures [] false false true false false = [] ++ rest)) :=
  ⟨by decide, C9_caller_lists_mutated [85/100, 242/100] [[-1/50, 6/5]]
    [] false false true false false (by decide)⟩

/-- A variant of `runGroups_wrap` in the composed form produced by
`setupMultiplot`. -/
theorem runGroups_wrap2 (specs : List Spectrum) :
    runGroups ((specs.map Obj.spec).map fun o => Obj.lst [o]) =
      .ok (specs.map fun s => [s]) := by
  rw [List.map_map]
  exact runGroups_wrap specs

theorem filter_mixed (l1 l2 : List Spectrum) :
    (l1.map Obj.spec ++ Obj.bad :: l2.map Obj.spec).filter
        (fun o => isSpec o || isList o) = (l1 ++ l2).map Obj.spec := by
  rw [List.filter_append, filter_specGood, List.filter_cons, if_neg (by simp [isSpec, isList]),
    filter_specGood, ← List.map_append]

theorem buildSplist_mixed (l1 l2 : List Spectrum) (hne : l1 ++ l2 ≠ []) :
    buildSplist (l1.map Obj.spec ++ Obj.bad :: l2.map Obj.spec) =
      some ((l1 ++ l2).map Obj.spec) := by
  have hpos : 0 < l1.length + l2.length := by
    have := List.length_pos.mpr hne
    rw [List.length_append] at this
    exact this
  have hlen : 2 ≤ (l1.map Obj.spec ++ Obj.bad :: l2.map Obj.spec).length := by
    rw [List.length_append, List.length_cons, List.length_map, List.length_map]
    omega
  rw [buildSplist_ge2 _ hlen, filter_mixed]

theorem plotNormalize_specs_ok (mp0 : Bool) (l : List Spectrum) (h : l ≠ []) :
    isOkE (plotNormalize mp0 (l.map Obj.spec)) = true := by
  cases l with
  | nil => exact absurd rfl h
  | cons s t =>
    cases t with
    | nil => rfl
    | cons s2 t2 =>
      rw [plotNormalize_some mp0 _ _ (buildSplist_specs (s :: s2 :: t2) (by simp))]
      cases mp0 with
      | true =>
        have h1 : plotNormalizeFrom true ((s :: s2 :: t2).map Obj.spec) =
            (runGroups (((s :: s2 :: t2).map Obj.spec).map fun o => Obj.lst [o])).map
              (fun gs => (true, gs)) := rfl
        rw [h1, runGroups_wrap2]
        rfl
      | false =>
        have h1 : plotNormalizeFrom false ((s :: s2 :: t2).map Obj.spec) =
            (runGroups [Obj.lst ((s :: s2 :: t2).map Obj.spec)]).map
              (fun gs => (false, gs)) := rfl
        have h2 : runGroups [Obj.lst ((s :: s2 :: t2).map Obj.spec)] =
            .ok [s :: s2 :: t2] := by
          rw [runGroups_cons_ok _ _ _ (runGroup_lst _ (by simp))]
          rfl
        rw [h1, h2]
        rfl

/-- C7: a flat list of two or more Spectrum objects with `multiplot=True` is
reinterpreted as one plot group per spectrum, each containing exactly that
spectrum. -/
theorem C7_flat_list_multiplot (specs : List Spectrum) (h : 2 ≤ specs.length) :
    plotNormalize true [Obj.lst (specs.map Obj.spec)] =
      .ok (true, specs.map fun s => [s]) := by
  cases specs with
  | nil => simp at h
  | cons s1 t =>
    cases t with
    | nil => simp at h
    | cons s2 t2 =>
      have h1 : plotNormalize true [Obj.lst ((s1 :: s2 :: t2).map Obj.spec)] =
          (runGroups (((s1 :: s2 :: t2).map Obj.spec).map fun o => Obj.lst [o])).map
            (fun gs => (true, gs)) := rfl
      rw [h1, runGroups_wrap2]
      rfl

/-- Witness for C7 at a concrete input. -/
theorem C7_flat_list_multiplot_witness :
    2 ≤ ([specConst, specB] : List Spectrum).length ∧
    plotNormalize true [Obj.lst ([specConst, specB].map Obj.spec)] =
      .ok (true, [specConst, specB].map fun s => [s]) :=
  ⟨by decide, C7_flat_list_multiplot [specConst, specB] (by decide)⟩

/-- C6 counterexample: for the sequence-of-sequences input `[[s1, s2]]` (one
inner sequence) with `multiplot=True`, the flag is forced OFF, not on —
`len(splist) == 1` at line 205 resets it — refuting "multiplot is forced on
regardless of the value the caller gave".  The output is still one plot with
the inner sequence overlaid. -/
theorem C6_multiplot_forced_counterexample :
    plotNormalize true [Obj.lst [Obj.lst [Obj.spec specConst, Obj.spec specB]]] =
      .ok (false, [[specConst, specB]]) ∧
    plotNormalize true [Obj.lst [Obj.lst [Obj.spec specConst, Obj.spec specB]]] ≠
      .ok (true, [[specConst, specB]]) := by
  have h : plotNormalize true [Obj.lst [Obj.lst [Obj.spec specConst, Obj.spec specB]]] =
      .ok (false, [[specConst, specB]]) := rfl
  refine ⟨h, ?_⟩
  rw [h]
  simp

/-- C6 amended: for a sequence-of-sequences input with at least two inner
sequences the multiplot flag is forced on regardless of the caller's value,
and the output is one plot group per inner sequence; with exactly one inner
sequence the flag is instead forced off, but the output is still that single
inner sequence as one plot group. -/
theorem C6_seq_of_seq_one_plot_per_inner (mp0 : Bool) (gs : List (List Spectrum))
    (hne : gs ≠ []) (hall : ∀ g ∈ gs, g ≠ []) :
    plotNormalize mp0 [Obj.lst (gs.map fun g => Obj.lst (g.map Obj.spec))] =
      .ok (decide (1 < gs.length), gs) := by
  cases gs with
  | nil => exact absurd rfl hne
  | cons g1 t =>
    cases t with
    | nil =>
      have h1 : plotNormalize mp0 [Obj.lst ([g1].map fun g => Obj.lst (g.map Obj.spec))] =
          (runGroups [Obj.lst (g1.map Obj.spec)]).map fun r => (false, r) := rfl
      have h2 : runGroups [Obj.lst (g1.map Obj.spec)] = .ok [g1] := by
        rw [runGroups_cons_ok _ _ g1 (runGroup_lst g1 (hall g1 (by simp)))]
        rfl
      rw [h1, h2]
      rfl
    | cons g2 t2 =>
      have h1 : plotNormalize mp0
          [Obj.lst ((g1 :: g2 :: t2).map fun g => Obj.lst (g.map Obj.spec))] =
          (runGroups ((g1 :: g2 :: t2).map fun g => Obj.lst (g.map Obj.spec))).map
            (fun r => (true, r)) := rfl
      rw [h1, runGroups_lstmap _ hall]
      have hd : decide (1 < (g1 :: g2 :: t2).length) = true := by simp
      rw [hd]
      rfl

/-- Witness for C6 amended at a concrete input. -/
theorem C6_seq_of_seq_one_plot_per_inner_witness :
    (([[specConst], [specB]] : List (List Spectrum)) ≠ [] ∧
      ∀ g ∈ ([[specConst], [specB]] : List (List Spectrum)), g ≠ []) ∧
    plotNormalize true
        [Obj.lst (([[specConst], [specB]] : List (List Spectrum)).map
          fun g => Obj.lst (g.map Obj.spec))] =
      .ok (decide (1 < ([[specConst], [specB]] : List (List Spectrum)).length),
        [[specConst], [specB]]) :=
  ⟨⟨by simp, by simp⟩,
    C6_seq_of_seq_one_plot_per_inner true [[specConst], [specB]] (by simp) (by simp)⟩

/-- C3 counterexample: a malformed element inside a single flat list is NOT
filtered out (line 190 uses the list as-is); it reaches the drawing loop and
`a.flux` raises `AttributeError` — the call fails, refuting "the malformed
element never causes the call to fail ... for all input forms". -/
theorem C3_flat_list_bad_element_counterexample :
    plotNormalize false [Obj.lst [Obj.spec specConst, Obj.bad]] =
      .error .attributeError := rfl

/-- C3 amended: only in the sequential-arguments form are malformed elements
skipped with a warning: there the call proceeds exactly as if the element had
not been passed, and succeeds when at least one Spectrum remains.  In the
single-flat-list (and sequence-of-sequences) forms a malformed element is not
filtered and makes the call fail (see the counterexample). -/
theorem C3_sequential_args_skip_bad (mp0 : Bool) (l1 l2 : List Spectrum)
    (hne : l1 ++ l2 ≠ []) :
    plotNormalize mp0 (l1.map Obj.spec ++ Obj.bad :: l2.map Obj.spec) =
      plotNormalize mp0 ((l1 ++ l2).map Obj.spec) ∧
    isOkE (plotNormalize mp0 ((l1 ++ l2).map Obj.spec)) = true := by
  constructor
  · rw [plotNormalize_some mp0 _ _ (buildSplist_mixed l1 l2 hne),
      plotNormalize_some mp0 _ _ (buildSplist_specs _ hne)]
  · exact plotNormalize_specs_ok mp0 (l1 ++ l2) hne

/-- Witness for C3 amended at a concrete input. -/
theorem C3_sequential_args_skip_bad_witness :
    ([specConst] ++ ([] : List Spectrum) ≠ []) ∧
    (plotNormalize false ([specConst].map Obj.spec ++ Obj.bad ::
        ([] : List Spectrum).map Obj.spec) =
      plotNormalize false (([specConst] ++ ([] : List Spectrum)).map Obj.spec) ∧
    isOkE (plotNormalize false (([specConst] ++ ([] : List Spectrum)).map Obj.spec)) = true) :=
  ⟨by simp, C3_sequential_args_skip_bad false [specConst] [] (by simp)⟩

end SplatPlot
